import Mathlib

/-!
Verification development for the KCF/DSST tracker (`src/src/kcftracker.cpp`).

The C++ code is shallowly embedded: `cv::Rect_<float>` geometry is modelled
over the rationals (the clamping logic is exact branch arithmetic), the
integer `cv::Rect` over the integers, feature maps as functions on finite
index types with rational values, and the spectral correlation pipeline by
the exact cyclic cross-correlation it computes in exact arithmetic.  The
Gaussian kernel and cosine-window transcendentals use `Real.exp` / `Real.cos`.
-/

/-- Embedding of the integer rectangle `cv::Rect` used by `init`. -/
structure IRect where
  x : ℤ
  y : ℤ
  width : ℤ
  height : ℤ
deriving DecidableEq, Repr

/-- Embedding of the float rectangle `cv::Rect_<float> _roi` used by `update`. -/
structure Rect where
  x : ℚ
  y : ℚ
  width : ℚ
  height : ℚ
deriving DecidableEq, Repr

/-- Embedding of the OpenCV rectangle intersection `operator&=` used at
line 211 of `kcftracker.cpp`: upper-left corner is the componentwise max,
lower-right corner the componentwise min, and an empty intersection is
replaced by the all-zero rectangle. -/
def rectIntersect (a b : IRect) : IRect :=
  if min (a.x + a.width) (b.x + b.width) - max a.x b.x ≤ 0 ∨
     min (a.y + a.height) (b.y + b.height) - max a.y b.y ≤ 0 then
    ⟨0, 0, 0, 0⟩
  else
    ⟨max a.x b.x, max a.y b.y,
     min (a.x + a.width) (b.x + b.width) - max a.x b.x,
     min (a.y + a.height) (b.y + b.height) - max a.y b.y⟩

/-- Embedding of `KCFTracker::init(const cv::Rect&, cv::Mat)`
(lines 188-200): the box is stored as given; the assertion
`roi.width >= 0 && roi.height >= 0` aborts on negative dimensions
(modelled by `none`); no clamping against the frame happens here. -/
def initRoi (roi : IRect) : Option IRect :=
  if 0 ≤ roi.width ∧ 0 ≤ roi.height then some roi else none

/-- Rectangle derived by `KCFTracker::init(cv::Point, cv::Point, cv::Mat)`
(lines 203-214): the axis-aligned box spanned by the two points, intersected
with the frame rectangle `(0, 0, cols, rows)`. -/
def initPtRect (p1x p1y p2x p2y cols rows : ℤ) : IRect :=
  rectIntersect ⟨min p1x p2x, min p1y p2y, |p2x - p1x|, |p2y - p1y|⟩ ⟨0, 0, cols, rows⟩

/-- Embedding of the two-point `init` overload: it builds the clamped
rectangle and delegates to the rectangle overload. -/
def initPt (p1x p1y p2x p2y cols rows : ℤ) : Option IRect :=
  initRoi (initPtRect p1x p1y p2x p2y cols rows)

/-- Statement of the spec predicate that a box lies within the frame bounds. -/
def withinFrame (r : IRect) (cols rows : ℤ) : Prop :=
  0 ≤ r.x ∧ 0 ≤ r.y ∧ r.x + r.width ≤ cols ∧ r.y + r.height ≤ rows

instance (r : IRect) (cols rows : ℤ) : Decidable (withinFrame r cols rows) := by
  unfold withinFrame; infer_instance

/-- Embedding of the `currentScaleFactor` update step of `KCFTracker::update`
(lines 243-247): multiply by the chosen scale-factor table entry, then clamp
at the lower bound only; the upper-bound clamp is commented out in the source. -/
def updateScaleFactor (csf factor minSF : ℚ) : ℚ :=
  if csf * factor < minSF then minSF else csf * factor

/-- Embedding of `KCFTracker::subPixelPeak` (lines 581-590). -/
def subPixelPeak (left center right : ℚ) : ℚ :=
  if 2 * center - right - left = 0 then 0
  else 0.5 * (right - left) / (2 * center - right - left)

theorem rectIntersect_frame_ok (t : IRect) (cols rows : ℤ)
    (hc : 0 ≤ cols) (hr : 0 ≤ rows) :
    0 ≤ (rectIntersect t ⟨0, 0, cols, rows⟩).width ∧
    0 ≤ (rectIntersect t ⟨0, 0, cols, rows⟩).height ∧
    withinFrame (rectIntersect t ⟨0, 0, cols, rows⟩) cols rows := by
  unfold rectIntersect withinFrame
  split_ifs with h
  · dsimp only
    omega
  · push_neg at h
    dsimp only at h ⊢
    omega

/-- Claim C1: after every update, `currentScaleFactor` is at least the
configured minimum scale factor; the update equals `max (csf * factor) min`,
a lower clamp only, and the result can strictly exceed any upper bound
(no upper clamp is applied). -/
theorem updateScaleFactor_lower_clamp_only :
    (∀ csf factor minSF : ℚ, minSF ≤ updateScaleFactor csf factor minSF) ∧
    (∀ csf factor minSF : ℚ,
      updateScaleFactor csf factor minSF = max (csf * factor) minSF) ∧
    (∃ csf factor minSF maxSF : ℚ,
      minSF ≤ maxSF ∧ maxSF < updateScaleFactor csf factor minSF) := by
  refine ⟨?_, ?_, 2, 2, 0, 1, by norm_num, by norm_num [updateScaleFactor]⟩
  · intro csf factor minSF
    unfold updateScaleFactor
    split_ifs with h
    · exact le_refl _
    · exact le_of_not_lt h
  · intro csf factor minSF
    unfold updateScaleFactor
    split_ifs with h
    · exact (max_eq_right (le_of_lt h)).symm
    · exact (max_eq_left (le_of_not_lt h)).symm

/-- Claim C2, counterexample: the rectangle overload of `init` stores the
box exactly as given — the partially off-frame box `x = -5` from the spec's
own scenario is stored unclamped and does not lie within a 200×200 frame. -/
theorem initRoi_does_not_clamp :
    initRoi ⟨-5, 0, 40, 40⟩ = some ⟨-5, 0, 40, 40⟩ ∧
    ¬ withinFrame ⟨-5, 0, 40, 40⟩ 200 200 := by decide

/-- Claim C2, amended: only the two-point overload of `init` clamps: it
intersects the derived box with the frame, so the stored box lies within the
frame bounds; the rectangle overload stores the box unchanged (clamping of
off-frame boxes is left to `update`). -/
theorem init_clamps_only_in_point_overload :
    (∀ roi : IRect, 0 ≤ roi.width → 0 ≤ roi.height → initRoi roi = some roi) ∧
    (∀ p1x p1y p2x p2y cols rows : ℤ, 0 ≤ cols → 0 ≤ rows →
      initPt p1x p1y p2x p2y cols rows =
        some (initPtRect p1x p1y p2x p2y cols rows) ∧
      withinFrame (initPtRect p1x p1y p2x p2y cols rows) cols rows) := by
  constructor
  · intro roi hw hh
    unfold initRoi
    exact if_pos ⟨hw, hh⟩
  · intro p1x p1y p2x p2y cols rows hc hr
    obtain ⟨hw, hh, hin⟩ := rectIntersect_frame_ok
      ⟨min p1x p2x, min p1y p2y, |p2x - p1x|, |p2y - p1y|⟩ cols rows hc hr
    refine ⟨?_, hin⟩
    unfold initPt initPtRect initRoi
    exact if_pos ⟨hw, hh⟩

/-- Claim C2, witness for the amended claim at the spec's scenario inputs. -/
theorem init_clamps_only_in_point_overload_witness :
    (0:ℤ) ≤ 200 ∧ (0:ℤ) ≤ 200 ∧
    (initPt (-5) 0 35 40 200 200 = some (initPtRect (-5) 0 35 40 200 200) ∧
     withinFrame (initPtRect (-5) 0 35 40 200 200) 200 200) :=
  ⟨by decide, by decide,
    init_clamps_only_in_point_overload.2 (-5) 0 35 40 200 200 (by decide) (by decide)⟩

/-- Claim C3: `subPixelPeak` returns exactly 0 when `2*center - left - right`
is 0, and `0.5*(right-left)/(2*center-right-left)` otherwise. -/
theorem subPixelPeak_eq (left center right : ℚ) :
    subPixelPeak left center right =
      if 2 * center - left - right = 0 then 0
      else 0.5 * (right - left) / (2 * center - right - left) := by
  unfold subPixelPeak
  by_cases h : 2 * center - right - left = 0
  · have h2 : 2 * center - left - right = 0 := by linarith
    simp [h, h2]
  · have h2 : ¬ (2 * center - left - right = 0) := fun hh => h (by linarith)
    simp [h, h2]

/-- Claim C7: `init` fails its assertion exactly when the box width or height
is negative; for nonnegative dimensions initialization proceeds. -/
theorem initRoi_none_iff (roi : IRect) :
    initRoi roi = none ↔ (roi.width < 0 ∨ roi.height < 0) := by
  unfold initRoi
  split_ifs with h
  · simp only [reduceCtorEq, false_iff]
    push_neg
    omega
  · simp only [true_iff]
    push_neg at h
    omega

/-- Entry `i` of the length-`n` cosine (Hanning) window built per axis by
`KCFTracker::createHanningMats` (lines 558-561) and across the scale axis
by `KCFTracker::createHanningMatsForScale` (lines 778-779):
`0.5 * (1 - cos(2*pi*i/(n-1)))`. -/
noncomputable def hannCoeff (n i : ℕ) : ℝ :=
  0.5 * (1 - Real.cos (2 * Real.pi * i / ((n : ℝ) - 1)))

/-- Claim C5, counterexample: for window size `n = 2` both entries of the
cosine window are 0, so no index (in particular no center index) evaluates
to 1; the claimed center value 1 fails for even window sizes. -/
theorem hannCoeff_two_no_center_one :
    hannCoeff 2 0 = 0 ∧ hannCoeff 2 1 = 0 ∧
    hannCoeff 2 0 ≠ 1 ∧ hannCoeff 2 1 ≠ 1 := by
  have h0 : hannCoeff 2 0 = 0 := by
    unfold hannCoeff
    norm_num
  have h1 : hannCoeff 2 1 = 0 := by
    unfold hannCoeff
    norm_num [Real.cos_two_pi]
  exact ⟨h0, h1, by rw [h0]; norm_num, by rw [h1]; norm_num⟩

theorem hannCoeff_even_ne_one (n i : ℕ) (hn : 2 ≤ n) (he : Even n) :
    hannCoeff n i ≠ 1 := by
  intro h
  unfold hannCoeff at h
  have hcos : Real.cos (2 * Real.pi * i / ((n : ℝ) - 1)) = -1 := by linarith
  obtain ⟨k, hk⟩ := Real.cos_eq_neg_one_iff.1 hcos
  have hne : ((n : ℝ) - 1) ≠ 0 := by
    have h2 : (2 : ℝ) ≤ (n : ℝ) := by exact_mod_cast hn
    linarith
  have hmul : (Real.pi + (k : ℝ) * (2 * Real.pi)) * ((n : ℝ) - 1) =
      2 * Real.pi * i := by
    rw [hk, div_mul_cancel₀ _ hne]
  have h3 : Real.pi * ((1 + 2 * (k : ℝ)) * ((n : ℝ) - 1)) =
      Real.pi * (2 * (i : ℝ)) := by linear_combination hmul
  have h4 : (1 + 2 * (k : ℝ)) * ((n : ℝ) - 1) = 2 * (i : ℝ) :=
    mul_left_cancel₀ Real.pi_ne_zero h3
  have hz : (1 + 2 * k) * ((n : ℤ) - 1) = 2 * (i : ℤ) := by exact_mod_cast h4
  have hodd : Odd ((1 + 2 * k) * ((n : ℤ) - 1)) := by
    refine Odd.mul ⟨k, by ring⟩ ?_
    obtain ⟨m, hm⟩ := he
    have hm1 : 1 ≤ m := by omega
    exact ⟨(m : ℤ) - 1, by push_cast [hm]; ring⟩
  rw [hz] at hodd
  exact (Int.not_odd_iff_even.mpr ⟨(i : ℤ), by ring⟩) hodd

/-- Claim C5, amended: for every window size `n ≥ 2` the cosine window is 0
at both end indices; the value 1 at a center index is attained exactly in
the odd case: for odd `n` the center index `(n-1)/2` evaluates to 1, while
for even `n` no index at all attains the value 1. -/
theorem hannCoeff_ends_center_parity (n : ℕ) (hn : 2 ≤ n) :
    hannCoeff n 0 = 0 ∧ hannCoeff n (n - 1) = 0 ∧
    (Odd n → hannCoeff n ((n - 1) / 2) = 1) ∧
    (Even n → ∀ i : ℕ, hannCoeff n i ≠ 1) := by
  have hne : ((n : ℝ) - 1) ≠ 0 := by
    have h2 : (2 : ℝ) ≤ (n : ℝ) := by exact_mod_cast hn
    linarith
  refine ⟨?_, ?_, ?_, fun he i => hannCoeff_even_ne_one n i hn he⟩
  · unfold hannCoeff
    norm_num
  · unfold hannCoeff
    have hcast : ((n - 1 : ℕ) : ℝ) = (n : ℝ) - 1 := by
      have h1 : 1 ≤ n := le_trans (by norm_num) hn
      push_cast [h1]
      ring
    rw [hcast, mul_div_assoc, div_self hne, mul_one, Real.cos_two_pi]
    norm_num
  · rintro ⟨k, hk⟩
    subst hk
    have hk1 : 1 ≤ k := by omega
    have hidx : (2 * k + 1 - 1) / 2 = k := by omega
    unfold hannCoeff
    rw [hidx]
    have hden : ((2 * k + 1 : ℕ) : ℝ) - 1 = 2 * (k : ℝ) := by
      push_cast
      ring
    rw [hden]
    have hk0 : (k : ℝ) ≠ 0 := by
      have : (1 : ℝ) ≤ (k : ℝ) := by exact_mod_cast hk1
      linarith
    have harg : 2 * Real.pi * (k : ℝ) / (2 * (k : ℝ)) = Real.pi := by
      field_simp
      ring
    rw [harg, Real.cos_pi]
    norm_num

/-- Claim C5, witness for the amended claim at `n = 3`. -/
theorem hannCoeff_ends_center_parity_witness :
    2 ≤ 3 ∧ (hannCoeff 3 0 = 0 ∧ hannCoeff 3 (3 - 1) = 0 ∧
      (Odd 3 → hannCoeff 3 ((3 - 1) / 2) = 1) ∧
      (Even 3 → ∀ i : ℕ, hannCoeff 3 i ≠ 1)) :=
  ⟨by norm_num, hannCoeff_ends_center_parity 3 (by norm_num)⟩

/-- Skeleton of the per-scale loop of `KCFTracker::get_scale_sample`
(lines 693-745).  The input records, for each scale index in order, whether
the patch extracted by the external sub-window collaborator has positive
width and height (`true`) or is degenerate (`false`, the `continue` branch).
The output matrix `xsf` and its row count `totalSize` are created only
inside the `if (i == 0)` block, so a column write at a later index while
the output is still unallocated is an abort (`Except.error`); otherwise the
loop returns the list of scale indices whose column was written. -/
def scaleLoop : List Bool → ℕ → Bool → List ℕ → Except Unit (List ℕ)
  | [], _, _, acc => Except.ok acc
  | b :: rest, i, alloc, acc =>
    if b then
      if i = 0 then scaleLoop rest (i + 1) true (acc ++ [i])
      else if alloc then scaleLoop rest (i + 1) alloc (acc ++ [i])
      else Except.error ()
    else scaleLoop rest (i + 1) alloc acc

/-- Embedding of `get_scale_sample` at the level of its control flow over
the per-index patch-degeneracy outcomes. -/
def get_scale_sample (patchOk : List Bool) : Except Unit (List ℕ) :=
  scaleLoop patchOk 0 false []

/-- Claim C6: when the first scale index's patch is degenerate and a later
one is valid, the output is never allocated and the estimation aborts,
contradicting the claim that a degenerate patch at any index (including the
first) is merely skipped; skipping does work for degenerate indices after a
valid first index. -/
theorem get_scale_sample_first_degenerate_aborts :
    get_scale_sample [false, true] = Except.error () ∧
    get_scale_sample [true, false, true] = Except.ok [0, 2] :=
  ⟨rfl, rfl⟩

/-- Embedding of the clamp `if (_roi.x >= image.cols - 1) _roi.x = image.cols - 1`
(lines 251-252 of `update`). -/
def clampRight (x bound : ℚ) : ℚ :=
  if bound - 1 ≤ x then bound - 1 else x

/-- Embedding of one axis of the final clamp of `update` (lines 251-254):
first the right clamp, then `if (x + w <= 0) x = -w + 2`. -/
def clampAxis (x w bound : ℚ) : ℚ :=
  if clampRight x bound + w ≤ 0 then -w + 2 else clampRight x bound

/-- Embedding of the final box clamp of `KCFTracker::update` (lines 251-254),
applied to both axes just before the box is returned. -/
def clampFinal (r : Rect) (cols rows : ℚ) : Rect :=
  ⟨clampAxis r.x r.width cols, clampAxis r.y r.height rows, r.width, r.height⟩

/-- Statement of the claimed postcondition on the box returned by `update`. -/
def updatePost (r : Rect) (cols rows : ℚ) : Prop :=
  r.x ≤ cols - 1 ∧ r.y ≤ rows - 1 ∧ 0 < r.x + r.width ∧ 0 < r.y + r.height

instance (r : Rect) (cols rows : ℚ) : Decidable (updatePost r cols rows) := by
  unfold updatePost; infer_instance

theorem clampAxis_post (x w bound : ℚ) (hw : 0 ≤ w) (hb : 3 ≤ bound) :
    clampAxis x w bound ≤ bound - 1 ∧ 0 < clampAxis x w bound + w := by
  unfold clampAxis clampRight
  split_ifs with h h2 h3 <;> constructor <;> linarith

/-- Claim C8, counterexample: on a 2-pixel-wide frame the re-clamp
`x = -w + 2` lands at `x = 2 > cols - 1`, so the returned box violates the
claimed postcondition `x <= image.cols - 1`. -/
theorem clampFinal_post_fails_on_tiny_frame :
    ¬ updatePost (clampFinal ⟨-1, 0, 0, 5⟩ 2 5) 2 5 := by
  unfold updatePost clampFinal clampAxis clampRight
  norm_num

/-- Claim C8, amended: for nonnegative box dimensions and a frame at least
3 pixels wide and tall, the box returned by `update` satisfies the final
clamp postcondition `x <= cols - 1`, `y <= rows - 1`, `x + width > 0`,
`y + height > 0`; on narrower frames the re-clamp `x = -width + 2` can
overshoot `cols - 1`. -/
theorem clampFinal_post (r : Rect) (cols rows : ℚ)
    (hw : 0 ≤ r.width) (hh : 0 ≤ r.height) (hc : 3 ≤ cols) (hr : 3 ≤ rows) :
    updatePost (clampFinal r cols rows) cols rows := by
  obtain ⟨hx1, hx2⟩ := clampAxis_post r.x r.width cols hw hc
  obtain ⟨hy1, hy2⟩ := clampAxis_post r.y r.height rows hh hr
  exact ⟨hx1, hy1, hx2, hy2⟩

/-- Claim C8, witness for the amended claim. -/
theorem clampFinal_post_witness :
    (0 : ℚ) ≤ 1 ∧ (0 : ℚ) ≤ 1 ∧ (3 : ℚ) ≤ 3 ∧ (3 : ℚ) ≤ 3 ∧
    updatePost (clampFinal ⟨0, 0, 1, 1⟩ 3 3) 3 3 :=
  ⟨by norm_num, by norm_num, by norm_num, by norm_num,
    clampFinal_post ⟨0, 0, 1, 1⟩ 3 3 (by norm_num) (by norm_num) (by norm_num) (by norm_num)⟩

/-- Embedding of one axis of the peak refinement in `KCFTracker::detect`
(lines 302-312): the sub-pixel correction is added only when the discrete
arg-max index is strictly interior (`0 < px < cols - 1`), and the response
center `cols / 2` (C++ integer division) is subtracted at the end.  The
response values along the axis are the function `resp`. -/
def detectOffsetX (resp : ℤ → ℚ) (px cols : ℤ) : ℚ :=
  (if 0 < px ∧ px < cols - 1 then
    (px : ℚ) + subPixelPeak (resp (px - 1)) (resp px) (resp (px + 1))
  else (px : ℚ)) - ((cols / 2 : ℤ) : ℚ)

/-- Claim C10: when the arg-max lies on the border of the response axis, the
returned offset is exactly the integer peak coordinate minus the integer
half response size, and it is independent of the response values (the
neighboring entries are never read). -/
theorem detectOffsetX_border (resp resp2 : ℤ → ℚ) (px cols : ℤ)
    (h : px = 0 ∨ px = cols - 1) :
    detectOffsetX resp px cols = (px : ℚ) - ((cols / 2 : ℤ) : ℚ) ∧
    detectOffsetX resp px cols = detectOffsetX resp2 px cols := by
  have hni : ¬ (0 < px ∧ px < cols - 1) := by omega
  unfold detectOffsetX
  rw [if_neg hni, if_neg hni]
  exact ⟨rfl, rfl⟩

/-- Claim C10, witness at a border peak `px = 0` on a width-5 response with
two different response functions. -/
theorem detectOffsetX_border_witness :
    ((0 : ℤ) = 0 ∨ (0 : ℤ) = 5 - 1) ∧
    (detectOffsetX (fun _ => 0) 0 5 = ((0 : ℤ) : ℚ) - (((5 : ℤ) / 2 : ℤ) : ℚ) ∧
     detectOffsetX (fun _ => 0) 0 5 = detectOffsetX (fun _ => 1) 0 5) :=
  ⟨Or.inl rfl, detectOffsetX_border (fun _ => 0) (fun _ => 1) 0 5 (Or.inl rfl)⟩

/-- Feature map as produced by `getFeatures`: `size_patch[2] = ch` channels
over a `size_patch[0] = m` by `size_patch[1] = n` spatial grid of rational
cell values. -/
def FeatureMap (ch m n : ℕ) : Type :=
  Fin ch → Fin m → Fin n → ℚ

/-- Sum of squared entries, `cv::sum(x.mul(x))[0]` in `gaussianCorrelation`
(line 371). -/
def sumSq {ch m n : ℕ} (x : FeatureMap ch m n) : ℚ :=
  ∑ i, ∑ p, ∑ q, x i p q * x i p q

/-- Entry of the spatial correlation `c` computed by the per-channel FFT
pipeline of `gaussianCorrelation` (lines 346-369): forward transforms,
conjugated spectral multiply, inverse transform and re-centering compute, in
exact arithmetic, the cyclic cross-correlation summed over channels; its
value at relative shift `(a, b)` is the sum over all cells of
`x1` times the cyclically shifted `x2`. -/
def corrAt {ch m n : ℕ} (x1 x2 : FeatureMap ch m n) (a : Fin m) (b : Fin n) : ℚ :=
  ∑ i, ∑ p, ∑ q, x1 i p q * x2 i (p + a) (q + b)

/-- Squared-distance proxy `d` of `gaussianCorrelation` (line 371):
`max(((sum x1² + sum x2²) - 2 c) / (size_patch[0]*size_patch[1]*size_patch[2]), 0)`. -/
def distProxy {ch m n : ℕ} (x1 x2 : FeatureMap ch m n) (a : Fin m) (b : Fin n) : ℚ :=
  max ((sumSq x1 + sumSq x2 - 2 * corrAt x1 x2 a b) / ((m : ℚ) * n * ch)) 0

/-- Response entry of `KCFTracker::gaussianCorrelation` (lines 373-375):
`exp(-d / (sigma * sigma))` applied to the clamped distance proxy. -/
noncomputable def gaussianCorrelation {ch m n : ℕ} (sigma : ℝ)
    (x1 x2 : FeatureMap ch m n) (a : Fin m) (b : Fin n) : ℝ :=
  Real.exp (-((distProxy x1 x2 a b : ℚ) : ℝ) / (sigma * sigma))

/-- Claim C4: for any feature map `x`, the self-correlation distance proxy of
`gaussianCorrelation(x, x)` is exactly 0 at zero relative shift, so the
Gaussian kernel maps it to a response of exactly 1, for every bandwidth. -/
theorem gaussianCorrelation_self_one (ch m n : ℕ) (sigma : ℝ)
    (x : FeatureMap ch (m + 1) (n + 1)) :
    distProxy x x 0 0 = 0 ∧ gaussianCorrelation sigma x x 0 0 = 1 := by
  have hc : corrAt x x 0 0 = sumSq x := by
    unfold corrAt sumSq
    simp
  have hd : distProxy x x 0 0 = 0 := by
    unfold distProxy
    rw [hc]
    have hz : sumSq x + sumSq x - 2 * sumSq x = 0 := by ring
    rw [hz, zero_div, max_self]
  refine ⟨hd, ?_⟩
  unfold gaussianCorrelation
  rw [hd]
  norm_num

/-- Claim C9: every response entry of `gaussianCorrelation` lies in `(0, 1]`:
the distance proxy is clamped to be nonnegative before the kernel map, so for
a nonzero bandwidth the exponential is positive and at most 1, for all
feature-map inputs and shifts. -/
theorem gaussianCorrelation_mem_Ioc (ch m n : ℕ) (sigma : ℝ)
    (x1 x2 : FeatureMap ch m n) (a : Fin m) (b : Fin n) (hs : sigma ≠ 0) :
    0 < gaussianCorrelation sigma x1 x2 a b ∧
    gaussianCorrelation sigma x1 x2 a b ≤ 1 := by
  have hd : (0 : ℚ) ≤ distProxy x1 x2 a b := le_max_right _ 0
  have hd2 : (0 : ℝ) ≤ ((distProxy x1 x2 a b : ℚ) : ℝ) := by exact_mod_cast hd
  have hs2 : (0 : ℝ) < sigma * sigma := mul_self_pos.2 hs
  constructor
  · exact Real.exp_pos _
  · rw [gaussianCorrelation, Real.exp_le_one_iff, neg_div]
    exact neg_nonpos_of_nonneg (div_nonneg hd2 (le_of_lt hs2))

/-- Constant-zero feature map used as the concrete witness input. -/
def zeroFeatureMap : FeatureMap 1 1 1 :=
  fun _ _ _ => 0

/-- Claim C9, witness at the zero feature map with bandwidth 1. -/
theorem gaussianCorrelation_mem_Ioc_witness :
    (1 : ℝ) ≠ 0 ∧
    (0 < gaussianCorrelation 1 zeroFeatureMap zeroFeatureMap 0 0 ∧
     gaussianCorrelation 1 zeroFeatureMap zeroFeatureMap 0 0 ≤ 1) :=
  ⟨by norm_num,
    gaussianCorrelation_mem_Ioc 1 1 1 1 zeroFeatureMap zeroFeatureMap 0 0 (by norm_num)⟩
